import Mathlib

/-!
Verification of the emporio-dona-rai front-end against its specification.

The development shallowly embeds the two source files:
* `src/unnamed/part_000` (the Gemini generation service): response parsing,
  the 4-way fan-out aggregation of `generateImages` and `refineImage`;
* `src/App.tsx`: the session state machine (handlers, messages, download
  filename computation) and a reachability relation over UI events.

Network effects are modelled by passing the settled outcomes of the four
requests explicitly; `Promise.all` / thrown exceptions become `Except`.
-/

namespace DonaRai

/-! ## Generation modes (src/App.tsx line 7) -/

inductive GenerationMode where
  | ECOMMERCE
  | SOCIAL
deriving DecidableEq

/-! ## Service response shapes (src/unnamed/part_000)

A response candidate holds `content.parts`; a part optionally carries
`inlineData` (a base64 payload plus MIME type).  `candidates` may be
absent on a response, modelled with `Option`. -/

structure InlineData where
  mimeType : String
  data : String
deriving DecidableEq

structure RespPart where
  inlineData : Option InlineData
deriving DecidableEq

structure CandContent where
  parts : List RespPart
deriving DecidableEq

structure Candidate where
  content : CandContent
deriving DecidableEq

structure ApiResponse where
  candidates : Option (List Candidate)
deriving DecidableEq

/-- JavaScript `s.startsWith(pre)`, on the character lists. -/
def strStartsWith (s pre : String) : Bool :=
  pre.toList.isPrefixOf s.toList

/-- The data URL built at src/unnamed/part_000 line 87:
`data:` + mimeType + `;base64,` + data. -/
def dataUrl (d : InlineData) : String :=
  "data:" ++ d.mimeType ++ ";base64," ++ d.data

/-- The predicate of the `find` at line 83 of src/unnamed/part_000, fused
with the URL construction: a part contributes iff it has `inlineData`
whose MIME type starts with `image/`. -/
def partImageUrl (p : RespPart) : Option String :=
  match p.inlineData with
  | some d => if strStartsWith d.mimeType "image/" then some (dataUrl d) else none
  | none => none

/-- For one candidate: the first part that carries image data
(`candidate.content.parts.find(...)`, line 83), rendered as a data URL. -/
def candidateImage (c : Candidate) : Option String :=
  c.content.parts.findSome? partImageUrl

/-- The `imageUrls` list built by the loop of `processApiResponse`
(lines 81-90): one URL per image-bearing candidate, in candidate order.
An absent or empty `candidates` field yields no URLs. -/
def responseImages (r : ApiResponse) : List String :=
  match r.candidates with
  | none => []
  | some cs => cs.filterMap candidateImage

/-- `processApiResponse` (src/unnamed/part_000 lines 79-97): collect one
image per image-bearing candidate; throw (`Except.error`) when no image
was extracted. -/
def processApiResponse (r : ApiResponse) : Except String (List String) :=
  let imageUrls := responseImages r
  if imageUrls = [] then
    Except.error "Nenhuma imagem foi gerada na resposta da API."
  else
    Except.ok imageUrls

/-- `Promise.all` over the settled outcomes of the fan-out requests: any
rejection rejects the whole join. -/
def promiseAll : List (Except String ApiResponse) → Except String (List ApiResponse)
  | [] => Except.ok []
  | Except.error e :: _ => Except.error e
  | Except.ok r :: rest =>
    match promiseAll rest with
    | Except.error e => Except.error e
    | Except.ok rs => Except.ok (r :: rs)

/-- `responses.flatMap(processApiResponse)` (line 120 / line 154) with the
JavaScript exception semantics: the first response that throws aborts the
whole concatenation. -/
def processAll : List ApiResponse → Except String (List String)
  | [] => Except.ok []
  | r :: rest =>
    match processApiResponse r with
    | Except.error e => Except.error e
    | Except.ok urls =>
      match processAll rest with
      | Except.error e => Except.error e
      | Except.ok more => Except.ok (urls ++ more)

/-- The shared `try` body of `generateImages` and `refineImage`
(lines 119-126 and 153-160): join the four requests, flat-map the
response processing, and fail when fewer than 4 URLs were collected. -/
def aggregateResponses (outcomes : List (Except String ApiResponse)) :
    Except String (List String) :=
  match promiseAll outcomes with
  | Except.error e => Except.error e
  | Except.ok responses =>
    match processAll responses with
    | Except.error e => Except.error e
    | Except.ok allImageUrls =>
      if allImageUrls.length < 4 then
        Except.error ("A API gerou apenas " ++ toString allImageUrls.length ++
          " de 4 imagens solicitadas.")
      else
        Except.ok allImageUrls

/-- Generic message thrown by the `catch` of `generateImages` (line 130). -/
def generateFailText : String :=
  "Falha ao gerar as imagens. Por favor, verifique o console para mais detalhes."

/-- Generic message thrown by the `catch` of `refineImage` (line 164). -/
def refineFailText : String :=
  "Falha ao refinar a imagem. Por favor, verifique o console para mais detalhes."

/-- `generateImages` (src/unnamed/part_000 lines 99-132), as a function of
the settled outcomes of its four requests.  Every error raised inside the
`try` block (a rejected request, a response without images, a short batch)
is replaced by the generic failure message. -/
def generateImages (outcomes : List (Except String ApiResponse)) :
    Except String (List String) :=
  match aggregateResponses outcomes with
  | Except.ok urls => Except.ok urls
  | Except.error _ => Except.error generateFailText

/-- `refineImage` (src/unnamed/part_000 lines 134-166): identical
aggregation, distinct generic failure message. -/
def refineImage (outcomes : List (Except String ApiResponse)) :
    Except String (List String) :=
  match aggregateResponses outcomes with
  | Except.ok urls => Except.ok urls
  | Except.error _ => Except.error refineFailText

/-! ## Instruction templates (src/unnamed/part_000 lines 41-77, 101)

`generateImages` picks `ecommercePrompt` when the mode is `ECOMMERCE`
and `socialPrompt` otherwise. -/

def ecommercePrompt : String :=
  "**TAREFA:** A partir da imagem fornecida, recrie-a como uma fotografia de produto para e-commerce com a mais alta qualidade profissional, hiper-realista e pronta para publicação.\n\n**DIRETRIZES ESSENCIAIS DE QUALIDADE:**\n\n1.  **ILUMINAÇÃO DE ESTÚDIO:** Simule uma configuração de **lightbox profissional**. A iluminação deve ser perfeitamente difusa, suave e envolvente, eliminando completamente sombras duras e reflexos especulares indesejados. O produto deve ser iluminado de forma a destacar suas texturas e formas naturais.\n\n2.  **FUNDO IMACULADO:** O fundo deve ser **branco puro (#FFFFFF), uniforme e absolutamente limpo**. É terminantemente proibido qualquer tipo de gradiente, textura ou **sombra projetada** do produto no fundo. O produto deve parecer flutuar em um espaço branco infinito.\n\n3.  **HIPER-REALISMO E COR:** A renderização deve ser **extremamente realista**. As texturas dos materiais (plástico, papel, metal, tecido, etc.) devem ser autênticas e táteis. A **precisão de cor é crítica**; as cores devem ser vibrantes, mas 100% fiéis ao produto original, com um balanço de branco perfeitamente neutro, sem dominantes de cor.\n\n4.  **NITIDEZ E DETALHE:** O produto inteiro deve estar em **foco absoluto e perfeitamente nítido** de ponta a ponta (grande profundidade de campo). As bordas devem ser limpas e definidas, sem aberrações cromáticas, halos ou desfoques de recorte.\n\n5.  **ENQUADRAMENTO PROFISSIONAL:**\n    *   **Proporção e Resolução:** A imagem final DEVE ser um quadrado perfeito (1:1) com resolução de 2048x2048 pixels.\n    *   **Composição:** O produto deve ser **cuidadosamente centralizado** e dimensionado para ocupar uma porção significativa do quadro (aproximadamente 85-90%), garantindo uma **margem (padding) generosa e visualmente consistente** em todos os lados. Evite que o produto pareça muito pequeno ou muito grande a ponto de tocar as bordas. O objetivo é um enquadramento equilibrado e profissional.\n"

def socialPrompt : String :=
  "**TAREFA:** A partir da imagem do produto fornecida, crie uma fotografia de ambiente (lifestyle) **hiper-realista e profissional** para redes sociais, que seja elegante e contextualizada.\n\n**DIRETRIZES ESSENCIAIS DE ESTILO:**\n\n1.  **CONTEXTO INTELIGENTE:** Analise o produto e crie um cenário que **complemente sua natureza e uso**. Por exemplo, um pote de geleia pode ser apresentado em uma mesa de café da manhã, enquanto um cosmético pode estar em um banheiro elegante. O objetivo é contar uma pequena história sobre o produto.\n\n2.  **ESTÉTICA CONSISTENTE:** Mantenha uma estética **rústica-chique, artesanal e convidativa**. Utilize materiais naturais como madeira, pedra, linho ou cerâmica. A composição deve parecer autêntica e cuidadosamente arranjada, nunca artificial.\n\n3.  **ILUMINAÇÃO E ATMOSFERA:**\n    *   A iluminação deve ser **natural e suave**, como a luz de uma janela. Crie **sombras suaves e realistas** que deem profundidade e volume à cena. A atmosfera geral deve ser quente, acolhedora e sofisticada.\n\n4.  **REALISMO E INTEGRAÇÃO DO PRODUTO:**\n    *   O produto fornecido deve ser **perfeitamente integrado** ao cenário, com sombras e reflexos realistas que interagem com o ambiente.\n    *   Mantenha a **fidelidade total ao produto original** (cores, texturas, rótulos).\n\n5.  **ENQUADRAMENTO E FOCO:**\n    *   **Proporção:** A imagem final DEVE ser um quadrado perfeito (1:1). Resolução: 2048x2048 pixels.\n    *   **Foco:** O produto deve ser o ponto focal principal. Use uma profundidade de campo ligeiramente rasa (foco suave no fundo) para destacá-lo, mas garantindo que o contexto seja reconhecível.\n    *   **Composição:** Siga princípios de composição fotográfica (como a regra dos terços) para um resultado visualmente atraente.\n"

/-- The prompt selection of `generateImages`, line 101:
`mode === 'ECOMMERCE' ? ecommercePrompt : socialPrompt`. -/
def promptForMode : GenerationMode → String
  | GenerationMode.ECOMMERCE => ecommercePrompt
  | GenerationMode.SOCIAL => socialPrompt

/-- One request of the fan-out: an image part plus a text part. -/
structure GenRequest where
  image : InlineData
  text : String
deriving DecidableEq

/-- The request construction of `generateImages` (lines 104-117):
`Array(4).fill(0).map(...)` builds four structurally identical requests
from the source image part and the mode's prompt. -/
def generateRequests (image : InlineData) (mode : GenerationMode) : List GenRequest :=
  List.replicate 4 { image := image, text := promptForMode mode }

/-! ## Session state (src/App.tsx) -/

inductive AppState where
  | IDLE
  | PROCESSING
  | SUCCESS
  | EDITING
  | ERROR
deriving DecidableEq

/-- The `File` fields the component reads: `name` and `type`. -/
structure FileRec where
  name : String
  type : String
deriving DecidableEq

/-- The React state of `App` (src/App.tsx lines 10-18), omitting the pure
presentation flags `isDragging` and the file-input ref. -/
structure AppSt where
  originalFile : Option FileRec
  generatedImageUrls : List String
  selectedImageUrl : Option String
  appState : AppState
  error : Option String
  generationMode : GenerationMode
  editPrompt : String
  processingMessage : String
deriving DecidableEq

/-- The initial `useState` values (lines 10-18). -/
def initialState : AppSt :=
  { originalFile := none
    generatedImageUrls := []
    selectedImageUrl := none
    appState := AppState.IDLE
    error := none
    generationMode := GenerationMode.ECOMMERCE
    editPrompt := ""
    processingMessage := "" }

/-- Processing message of `handleInitialGeneration` (line 24). -/
def initialProcessingMsg : GenerationMode → String
  | GenerationMode.ECOMMERCE => "Recriando com perfeição..."
  | GenerationMode.SOCIAL => "Criando suas fotos ambiente..."

/-- Processing message of `handleRefinement` (line 44). -/
def refiningMsg : String := "Refinando sua imagem..."

/-- User-facing error set when the initial generation rejects (line 35). -/
def initialGenErrorText : String :=
  "A IA não conseguiu processar a imagem. Por favor, tente novamente ou use uma foto diferente."

/-- User-facing error set when a refinement rejects (line 55). -/
def refineErrorText : String :=
  "A IA não conseguiu refinar a imagem. Por favor, tente novamente."

/-- Inline error for a rejected (non-image) file (line 79). -/
def invalidFileText : String :=
  "Por favor, selecione um arquivo de imagem válido (JPEG, PNG, WEBP, etc.)."

/-- The canned "more variations" instruction (line 235). -/
def variationsPrompt : String :=
  "Crie mais 4 variações desta imagem, mantendo o mesmo estilo geral, mas com pequenas alterações na composição, iluminação e nos elementos de fundo."

/-- Synchronous prefix of `handleInitialGeneration` (lines 23-27), run up
to the `await`: enter PROCESSING, pick the mode's processing message,
clear the error, the batch and the selection. -/
def handleInitialGenerationStart (s : AppSt) : AppSt :=
  { s with appState := AppState.PROCESSING
           processingMessage := initialProcessingMsg s.generationMode
           error := none
           generatedImageUrls := []
           selectedImageUrl := none }

/-- Continuation of `handleInitialGeneration` once `generateImages`
settles (lines 30-37). -/
def handleInitialGenerationSettle (result : Except String (List String))
    (s : AppSt) : AppSt :=
  match result with
  | Except.ok urls => { s with generatedImageUrls := urls, appState := AppState.SUCCESS }
  | Except.error _ => { s with error := some initialGenErrorText, appState := AppState.ERROR }

/-- Synchronous prefix of `handleRefinement` (lines 40-46): bail out when
no image is selected, else enter PROCESSING.  The second component is the
`(image, prompt)` argument handed to `refineImage`, `none` when the call
is not made. -/
def handleRefinementSubmit (prompt : String) (s : AppSt) :
    AppSt × Option (String × String) :=
  match s.selectedImageUrl with
  | none => (s, none)
  | some url =>
    ({ s with appState := AppState.PROCESSING
              processingMessage := refiningMsg
              error := none },
     some (url, prompt))

/-- Continuation of `handleRefinement` once `refineImage` settles
(lines 48-57): on success store the batch, clear the selection and the
edit prompt; on failure set the refinement error. -/
def handleRefinementSettle (result : Except String (List String))
    (s : AppSt) : AppSt :=
  match result with
  | Except.ok urls =>
    { s with generatedImageUrls := urls
             selectedImageUrl := none
             editPrompt := ""
             appState := AppState.SUCCESS }
  | Except.error _ => { s with error := some refineErrorText, appState := AppState.ERROR }

/-- `handleStartOver` (lines 61-71). -/
def handleStartOver (s : AppSt) : AppSt :=
  { s with originalFile := none
           generatedImageUrls := []
           selectedImageUrl := none
           error := none
           appState := AppState.IDLE
           editPrompt := "" }

/-- `handleFileSelect` (lines 73-82).  A valid image file resets the
session, is stored as the original file and starts the initial
generation; anything else sets the inline error and stays IDLE.  The
second component is the file handed to `generateImages`, `none` when the
generation is not started. -/
def handleFileSelect (file : Option FileRec) (s : AppSt) :
    AppSt × Option FileRec :=
  match file with
  | some f =>
    if strStartsWith f.type "image/" then
      (handleInitialGenerationStart { handleStartOver s with originalFile := some f },
       some f)
    else
      ({ s with error := some invalidFileText, appState := AppState.IDLE }, none)
  | none => (s, none)

/-- `handleSelectImage` (lines 127-130). -/
def handleSelectImage (imageUrl : String) (s : AppSt) : AppSt :=
  { s with selectedImageUrl := some imageUrl, appState := AppState.EDITING }

/-- `handleBackToGrid` (lines 132-135). -/
def handleBackToGrid (s : AppSt) : AppSt :=
  { s with selectedImageUrl := none, appState := AppState.SUCCESS }

/-- `setGenerationMode` as wired to the two mode buttons (lines 281, 292). -/
def setGenerationMode (m : GenerationMode) (s : AppSt) : AppSt :=
  { s with generationMode := m }

/-- The mode toggle container (line 279) blocks pointer events exactly
when `appState === 'PROCESSING'`; in every other state the two mode
buttons are rendered and clickable. -/
def modeChangeAvailable (s : AppSt) : Bool :=
  match s.appState with
  | AppState.PROCESSING => false
  | _ => true

/-! ## Download filename (src/App.tsx lines 115-125) -/

/-- JavaScript `name.split('.')` specialised to the dot separator,
written by structural recursion on the characters. -/
def splitDotAux : List Char → List Char → List String
  | [], acc => [String.mk acc.reverse]
  | c :: rest, acc =>
    if c = '.' then String.mk acc.reverse :: splitDotAux rest []
    else splitDotAux rest (c :: acc)

def jsSplitDot (s : String) : List String := splitDotAux s.toList []

/-- JavaScript `parts.join('.')`. -/
def joinDot : List String → String
  | [] => ""
  | [x] => x
  | x :: xs => x ++ "." ++ joinDot xs

/-- `originalFile?.name.split('.').slice(0, -1).join('.')` (line 119);
an absent file yields the empty string (the optional chain is
`undefined`, which — like the empty string — is falsy and triggers the
`'produto'` fallback). -/
def downloadBaseName : Option FileRec → String
  | none => ""
  | some f => joinDot (jsSplitDot f.name).dropLast

/-- `generationMode.toLowerCase()` on the two mode literals (line 120). -/
def modeSlug : GenerationMode → String
  | GenerationMode.ECOMMERCE => "ecommerce"
  | GenerationMode.SOCIAL => "social"

/-- `handleDownload` (lines 115-125): with no selected image nothing is
emitted; otherwise the download attribute is
`{originalName}-{mode}-editado.jpeg` with the `'produto'` fallback for an
empty base name. -/
def handleDownload (s : AppSt) : Option String :=
  match s.selectedImageUrl with
  | none => none
  | some _ =>
    let originalName := downloadBaseName s.originalFile
    let base := if originalName = "" then "produto" else originalName
    some (base ++ "-" ++ modeSlug s.generationMode ++ "-editado.jpeg")

/-! ## Reachable session states

One constructor per UI event, guarded by the conditions under which the
corresponding control is rendered and enabled in `App`:
* files can be selected or dropped only while IDLE (lines 93, 109-113);
* the settle continuations run while PROCESSING, distinguished by the
  processing message their start set;
* grid selection needs SUCCESS and an image of the current batch;
* the refinement buttons render in EDITING, the prompt button only with
  a non-blank prompt (line 223), the variations button always (line 235);
* start over buttons render in SUCCESS, EDITING and ERROR;
* retry renders in ERROR and fires only with a stored original file;
* the mode toggle accepts clicks whenever not PROCESSING (line 279);
* the edit prompt textarea renders in EDITING. -/

inductive Reachable : AppSt → Prop where
  | init : Reachable initialState
  | fileSelect (s : AppSt) (f : Option FileRec) :
      Reachable s → s.appState = AppState.IDLE →
      Reachable (handleFileSelect f s).1
  | genSettle (s : AppSt) (result : Except String (List String)) :
      Reachable s → s.appState = AppState.PROCESSING →
      (s.processingMessage = initialProcessingMsg GenerationMode.ECOMMERCE ∨
       s.processingMessage = initialProcessingMsg GenerationMode.SOCIAL) →
      Reachable (handleInitialGenerationSettle result s)
  | selectImage (s : AppSt) (url : String) :
      Reachable s → s.appState = AppState.SUCCESS →
      url ∈ s.generatedImageUrls →
      Reachable (handleSelectImage url s)
  | backToGrid (s : AppSt) :
      Reachable s → s.appState = AppState.EDITING →
      Reachable (handleBackToGrid s)
  | refineSubmit (s : AppSt) (prompt : String) :
      Reachable s → s.appState = AppState.EDITING →
      ((prompt = s.editPrompt ∧ ¬ s.editPrompt.trim = "") ∨ prompt = variationsPrompt) →
      Reachable (handleRefinementSubmit prompt s).1
  | refineSettle (s : AppSt) (result : Except String (List String)) :
      Reachable s → s.appState = AppState.PROCESSING →
      s.processingMessage = refiningMsg →
      Reachable (handleRefinementSettle result s)
  | startOver (s : AppSt) :
      Reachable s →
      (s.appState = AppState.SUCCESS ∨ s.appState = AppState.EDITING ∨
       s.appState = AppState.ERROR) →
      Reachable (handleStartOver s)
  | retry (s : AppSt) (f : FileRec) :
      Reachable s → s.appState = AppState.ERROR → s.originalFile = some f →
      Reachable (handleInitialGenerationStart s)
  | setMode (s : AppSt) (m : GenerationMode) :
      Reachable s → s.appState ≠ AppState.PROCESSING →
      Reachable (setGenerationMode m s)
  | setPrompt (s : AppSt) (p : String) :
      Reachable s → s.appState = AppState.EDITING →
      Reachable { s with editPrompt := p }

/-! ## Concrete fixtures -/

/-- A response part carrying a PNG payload. -/
def imgPart (d : String) : RespPart :=
  { inlineData := some { mimeType := "image/png", data := d } }

/-- A candidate whose single part carries a PNG payload. -/
def imgCand (d : String) : Candidate := { content := { parts := [imgPart d] } }

/-- A response with one image-bearing candidate. -/
def oneImgResp (d : String) : ApiResponse := { candidates := some [imgCand d] }

/-- A response with two image-bearing candidates. -/
def twoImgResp (d e : String) : ApiResponse :=
  { candidates := some [imgCand d, imgCand e] }

/-- A response whose only candidate has no image part. -/
def noImgResp : ApiResponse :=
  { candidates := some [{ content := { parts := [{ inlineData := none }] } }] }

def file1 : FileRec := { name := "foto.png", type := "image/png" }

/-- State after dropping `foto.png` on the idle app: PROCESSING. -/
def stProc1 : AppSt := (handleFileSelect (some file1) initialState).1

def urls4 : List String := ["u1", "u2", "u3", "u4"]

/-- State after the initial generation succeeds with four images. -/
def stGrid : AppSt := handleInitialGenerationSettle (Except.ok urls4) stProc1

/-- State after selecting the first grid image. -/
def stEdit : AppSt := handleSelectImage "u1" stGrid

/-- State right after submitting the canned variations refinement. -/
def stProcRefine : AppSt := (handleRefinementSubmit variationsPrompt stEdit).1

/-- State after that refinement rejects. -/
def stErrRefine : AppSt := handleRefinementSettle (Except.error "x") stProcRefine

theorem reach_stProc1 : Reachable stProc1 :=
  Reachable.fileSelect initialState (some file1) Reachable.init rfl

theorem reach_stGrid : Reachable stGrid :=
  Reachable.genSettle stProc1 (Except.ok urls4) reach_stProc1 rfl (Or.inl rfl)

theorem reach_stEdit : Reachable stEdit :=
  Reachable.selectImage stGrid "u1" reach_stGrid rfl (by decide)

theorem reach_stProcRefine : Reachable stProcRefine :=
  Reachable.refineSubmit stEdit variationsPrompt reach_stEdit rfl (Or.inr rfl)

theorem reach_stErrRefine : Reachable stErrRefine :=
  Reachable.refineSettle stProcRefine (Except.error "x") reach_stProcRefine rfl rfl

/-! ## Helper lemmas about the aggregation -/

theorem promiseAll_error_of_mem (outcomes : List (Except String ApiResponse))
    (e : String) (h : Except.error e ∈ outcomes) :
    ∃ e2, promiseAll outcomes = Except.error e2 := by
  induction outcomes with
  | nil => cases h
  | cons x rest ih =>
    cases x with
    | error e1 => exact ⟨e1, rfl⟩
    | ok r =>
      have hmem : Except.error e ∈ rest := by
        cases List.mem_cons.mp h with
        | inl hx => cases hx
        | inr hx => exact hx
      obtain ⟨e2, h2⟩ := ih hmem
      exact ⟨e2, by simp [promiseAll, h2]⟩

theorem promiseAll_map_ok (rs : List ApiResponse) :
    promiseAll (rs.map Except.ok) = Except.ok rs := by
  induction rs with
  | nil => rfl
  | cons r rest ih => simp [promiseAll, ih]

theorem promiseAll_ok_mem (outcomes : List (Except String ApiResponse))
    (rs : List ApiResponse) (r : ApiResponse)
    (hall : promiseAll outcomes = Except.ok rs) (hmem : Except.ok r ∈ outcomes) :
    r ∈ rs := by
  induction outcomes generalizing rs with
  | nil => cases hmem
  | cons x rest ih =>
    cases x with
    | error e1 => simp [promiseAll] at hall
    | ok r1 =>
      rw [promiseAll] at hall
      cases hrest : promiseAll rest with
      | error e2 => rw [hrest] at hall; cases hall
      | ok rs1 =>
        rw [hrest] at hall
        injection hall with h1
        subst h1
        cases List.mem_cons.mp hmem with
        | inl hx =>
          injection hx with h2
          subst h2
          exact List.mem_cons_self _ _
        | inr hx => exact List.mem_cons_of_mem _ (ih rs1 hrest hx)

theorem processAll_ok_of_nonempty (rs : List ApiResponse)
    (h : ∀ r ∈ rs, responseImages r ≠ []) :
    processAll rs = Except.ok (rs.flatMap responseImages) := by
  induction rs with
  | nil => rfl
  | cons r rest ih =>
    have hr : responseImages r ≠ [] := h r (List.mem_cons_self r rest)
    have hrest := ih (fun x hx => h x (List.mem_cons_of_mem r hx))
    simp [processAll, processApiResponse, hr, hrest]

theorem processAll_error_of_empty (rs : List ApiResponse) (r : ApiResponse)
    (hmem : r ∈ rs) (hempty : responseImages r = []) :
    ∃ e, processAll rs = Except.error e := by
  induction rs with
  | nil => cases hmem
  | cons x rest ih =>
    by_cases hx : responseImages x = []
    · exact ⟨"Nenhuma imagem foi gerada na resposta da API.", by
        simp [processAll, processApiResponse, hx]⟩
    · have hmem' : r ∈ rest := by
        cases List.mem_cons.mp hmem with
        | inl he => exact absurd hempty (he ▸ hx)
        | inr he => exact he
      obtain ⟨e, he⟩ := ih hmem'
      exact ⟨e, by simp [processAll, processApiResponse, hx, he]⟩

/-- A successful aggregation collected at least four URLs. -/
theorem aggregateResponses_ok_length (outcomes : List (Except String ApiResponse))
    (urls : List String) (h : aggregateResponses outcomes = Except.ok urls) :
    4 ≤ urls.length := by
  cases hpa : promiseAll outcomes with
  | error e => simp [aggregateResponses, hpa] at h
  | ok rs =>
    cases hproc : processAll rs with
    | error e => simp [aggregateResponses, hpa, hproc] at h
    | ok us =>
      by_cases hlt : us.length < 4
      · simp [aggregateResponses, hpa, hproc, hlt] at h
      · simp [aggregateResponses, hpa, hproc, hlt] at h
        subst h
        omega

/-! ## Helper lemmas about the filename computation -/

theorem string_mk_toList (s : String) : String.mk s.toList = s := rfl

theorem splitDotAux_no_dot (cs : List Char) (acc : List Char) (h : '.' ∉ cs) :
    splitDotAux cs acc = [String.mk (acc.reverse ++ cs)] := by
  induction cs generalizing acc with
  | nil => simp [splitDotAux]
  | cons c rest ih =>
    have hc : ¬ c = '.' := fun he => h (by simp [he])
    have hrest : '.' ∉ rest := fun hm => h (List.mem_cons_of_mem c hm)
    simp [splitDotAux, hc, ih _ hrest, List.reverse_cons, List.append_assoc]

theorem splitDotAux_single (cs ds : List Char) (acc : List Char)
    (hcs : '.' ∉ cs) (hds : '.' ∉ ds) :
    splitDotAux (cs ++ '.' :: ds) acc =
      [String.mk (acc.reverse ++ cs), String.mk ds] := by
  induction cs generalizing acc with
  | nil => simp [splitDotAux, splitDotAux_no_dot ds [] hds]
  | cons c rest ih =>
    have hc : ¬ c = '.' := fun he => hcs (by simp [he])
    have hrest : '.' ∉ rest := fun hm => hcs (List.mem_cons_of_mem c hm)
    simp [splitDotAux, hc, ih _ hrest, List.reverse_cons, List.append_assoc]

theorem jsSplitDot_single (base ext : String)
    (hb : '.' ∉ base.toList) (he : '.' ∉ ext.toList) :
    jsSplitDot (base ++ "." ++ ext) = [base, ext] := by
  have hdata : (base ++ "." ++ ext).toList = base.toList ++ '.' :: ext.toList := by
    show (base ++ "." ++ ext).data = base.data ++ '.' :: ext.data
    simp [String.data_append]
  rw [jsSplitDot, hdata, splitDotAux_single base.toList ext.toList [] hb he]
  simp [string_mk_toList]

theorem downloadBaseName_no_dot (f : FileRec) (h : '.' ∉ f.name.toList) :
    downloadBaseName (some f) = "" := by
  rw [downloadBaseName, jsSplitDot, splitDotAux_no_dot f.name.toList [] h]
  simp [joinDot]

/-! ## Claim C1 -/

/-- C1, counterexample: the claim says a successful call returns exactly
4 images, but when one of the four settled responses carries two
image-bearing candidates `generateImages` succeeds with 5 images (the
code only checks `allImageUrls.length < 4`). -/
theorem c1_counterexample :
    generateImages [Except.ok (twoImgResp "a" "b"), Except.ok (oneImgResp "c"),
        Except.ok (oneImgResp "d"), Except.ok (oneImgResp "e")] =
      Except.ok ["data:image/png;base64,a", "data:image/png;base64,b",
        "data:image/png;base64,c", "data:image/png;base64,d",
        "data:image/png;base64,e"] ∧
    (["data:image/png;base64,a", "data:image/png;base64,b",
        "data:image/png;base64,c", "data:image/png;base64,d",
        "data:image/png;base64,e"] : List String).length ≠ 4 :=
  ⟨rfl, by decide⟩

/-- C1 (amended): every successful `generateImages` or `refineImage`
call returns a batch of AT LEAST 4 images (the length check is a lower
bound only), and whenever the settled responses yield fewer than 4
extracted images the operation fails with its generic error and no
partial batch is returned. -/
theorem c1_amended :
    (∀ outcomes urls, generateImages outcomes = Except.ok urls → 4 ≤ urls.length) ∧
    (∀ outcomes urls, refineImage outcomes = Except.ok urls → 4 ≤ urls.length) ∧
    (∀ (responses : List ApiResponse) (urls : List String),
      processAll responses = Except.ok urls → urls.length < 4 →
      generateImages (responses.map Except.ok) = Except.error generateFailText ∧
      refineImage (responses.map Except.ok) = Except.error refineFailText) := by
  refine ⟨?_, ?_, ?_⟩
  · intro outcomes urls h
    cases hag : aggregateResponses outcomes with
    | error e => simp [generateImages, hag] at h
    | ok us =>
      simp [generateImages, hag] at h
      exact h ▸ aggregateResponses_ok_length outcomes us hag
  · intro outcomes urls h
    cases hag : aggregateResponses outcomes with
    | error e => simp [refineImage, hag] at h
    | ok us =>
      simp [refineImage, hag] at h
      exact h ▸ aggregateResponses_ok_length outcomes us hag
  · intro responses urls hproc hlt
    have hag : aggregateResponses (responses.map Except.ok) =
        Except.error ("A API gerou apenas " ++ toString urls.length ++
          " de 4 imagens solicitadas.") := by
      simp [aggregateResponses, promiseAll_map_ok, hproc, hlt]
    exact ⟨by simp [generateImages, hag], by simp [refineImage, hag]⟩

/-- C1 witness: a concrete successful call, with the 4-image lower bound
obtained from `c1_amended`. -/
theorem c1_witness :
    4 ≤ (["data:image/png;base64,a", "data:image/png;base64,b",
      "data:image/png;base64,c", "data:image/png;base64,d"] : List String).length :=
  c1_amended.1 [Except.ok (oneImgResp "a"), Except.ok (oneImgResp "b"),
    Except.ok (oneImgResp "c"), Except.ok (oneImgResp "d")] _ rfl

/-! ## Claim C2 -/

/-- Modelled from the spec: per-response extraction exactly as the claim
words it — "from each response, extract the first returned candidate
that contains image data; responses without an image-bearing candidate
contribute nothing".  Used only to compare the claim's reading with the
code's `processApiResponse`. -/
def specFirstCandidateImages (r : ApiResponse) : List String :=
  match r.candidates with
  | none => []
  | some cs =>
    match cs.findSome? candidateImage with
    | some u => [u]
    | none => []

/-- Modelled from the spec: the claim's aggregation — concatenate the
per-response extractions and validate the result against the 4-image
minimum. -/
def specAggregate (responses : List ApiResponse) : Except String (List String) :=
  let urls := responses.flatMap specFirstCandidateImages
  if urls.length < 4 then Except.error "partial batch" else Except.ok urls

/-- C2, counterexample: on four settled responses of two image-bearing
candidates each, the code collects BOTH candidates of every response
(8 URLs) while the claim's aggregation collects only the first of each
(4 URLs); and a response without an image-bearing candidate does not
contribute nothing — `processApiResponse` throws, so the whole operation
fails even when the other responses supply at least 4 images. -/
theorem c2_counterexample :
    generateImages [Except.ok (twoImgResp "a" "b"), Except.ok (twoImgResp "c" "d"),
        Except.ok (twoImgResp "e" "f"), Except.ok (twoImgResp "g" "h")] =
      Except.ok ["data:image/png;base64,a", "data:image/png;base64,b",
        "data:image/png;base64,c", "data:image/png;base64,d",
        "data:image/png;base64,e", "data:image/png;base64,f",
        "data:image/png;base64,g", "data:image/png;base64,h"] ∧
    specAggregate [twoImgResp "a" "b", twoImgResp "c" "d",
        twoImgResp "e" "f", twoImgResp "g" "h"] =
      Except.ok ["data:image/png;base64,a", "data:image/png;base64,c",
        "data:image/png;base64,e", "data:image/png;base64,g"] ∧
    (["data:image/png;base64,a", "data:image/png;base64,b",
        "data:image/png;base64,c", "data:image/png;base64,d",
        "data:image/png;base64,e", "data:image/png;base64,f",
        "data:image/png;base64,g", "data:image/png;base64,h"] : List String) ≠
      ["data:image/png;base64,a", "data:image/png;base64,c",
        "data:image/png;base64,e", "data:image/png;base64,g"] ∧
    processApiResponse noImgResp =
      Except.error "Nenhuma imagem foi gerada na resposta da API." ∧
    generateImages [Except.ok noImgResp, Except.ok (twoImgResp "a" "b"),
        Except.ok (twoImgResp "c" "d"), Except.ok (twoImgResp "e" "f")] =
      Except.error generateFailText :=
  ⟨rfl, rfl, by decide, rfl, rfl⟩

/-- C2 (amended): the aggregation extracts, from EVERY candidate of each
response, the first part containing image data — when all 4 responses
have at least one image-bearing candidate the flat-mapped result
concatenates all of them in per-request order — and a response without
any image-bearing candidate makes the whole operation fail with the
generic error instead of contributing nothing. -/
theorem c2_amended :
    (∀ responses : List ApiResponse, (∀ r ∈ responses, responseImages r ≠ []) →
      processAll responses = Except.ok (responses.flatMap responseImages)) ∧
    (∀ (outcomes : List (Except String ApiResponse)) (r : ApiResponse),
      Except.ok r ∈ outcomes → responseImages r = [] →
      generateImages outcomes = Except.error generateFailText ∧
      refineImage outcomes = Except.error refineFailText) := by
  refine ⟨processAll_ok_of_nonempty, ?_⟩
  intro outcomes r hmem hempty
  cases hpa : promiseAll outcomes with
  | error e =>
    exact ⟨by simp [generateImages, aggregateResponses, hpa],
           by simp [refineImage, aggregateResponses, hpa]⟩
  | ok rs =>
    have hr : r ∈ rs := promiseAll_ok_mem outcomes rs r hpa hmem
    obtain ⟨e, he⟩ := processAll_error_of_empty rs r hr hempty
    exact ⟨by simp [generateImages, aggregateResponses, hpa, he],
           by simp [refineImage, aggregateResponses, hpa, he]⟩

/-- C2 witness: a concrete response without an image-bearing candidate
fails both operations, via `c2_amended`. -/
theorem c2_witness :
    generateImages [Except.ok noImgResp] = Except.error generateFailText ∧
    refineImage [Except.ok noImgResp] = Except.error refineFailText :=
  c2_amended.2 [Except.ok noImgResp] noImgResp (List.mem_cons_self _ _) rfl

/-! ## Claim C4 -/

/-- C4: if any of the 4 settled request outcomes is a rejection, both
operations fail with their generic messages (no images are returned),
the two service-level messages differ, and the user-facing error strings
the two App settle paths store also differ. -/
theorem c4_reject_fails (outcomes : List (Except String ApiResponse)) (e : String)
    (hlen : outcomes.length = 4) (hmem : Except.error e ∈ outcomes) :
    generateImages outcomes = Except.error generateFailText ∧
    refineImage outcomes = Except.error refineFailText ∧
    generateFailText ≠ refineFailText ∧
    (∀ (s : AppSt) (err : String),
      (handleInitialGenerationSettle (Except.error err) s).appState = AppState.ERROR ∧
      (handleInitialGenerationSettle (Except.error err) s).error = some initialGenErrorText ∧
      (handleRefinementSettle (Except.error err) s).appState = AppState.ERROR ∧
      (handleRefinementSettle (Except.error err) s).error = some refineErrorText) ∧
    initialGenErrorText ≠ refineErrorText := by
  obtain ⟨e2, h2⟩ := promiseAll_error_of_mem outcomes e hmem
  refine ⟨by simp [generateImages, aggregateResponses, h2],
          by simp [refineImage, aggregateResponses, h2],
          by decide, ?_, by decide⟩
  intro s err
  exact ⟨rfl, rfl, rfl, rfl⟩

/-- C4 witness: one rejected request among four concrete outcomes fails
`generateImages`, via `c4_reject_fails`. -/
theorem c4_witness :
    generateImages [Except.error "boom", Except.ok (oneImgResp "a"),
      Except.ok (oneImgResp "b"), Except.ok (oneImgResp "c")] =
      Except.error generateFailText :=
  (c4_reject_fails [Except.error "boom", Except.ok (oneImgResp "a"),
    Except.ok (oneImgResp "b"), Except.ok (oneImgResp "c")] "boom" rfl
    (List.mem_cons_self _ _)).1

/-! ## Claim C3 -/

/-- C3, counterexample: the invariant "SelectedImage non-null iff
Editing" fails — submitting a refinement keeps the selection while
PROCESSING, and after the refinement rejects the selection is still set
in ERROR (`handleRefinement` never clears `selectedImageUrl` on those
paths). -/
theorem c3_counterexample :
    Reachable stProcRefine ∧ stProcRefine.appState = AppState.PROCESSING ∧
    stProcRefine.selectedImageUrl = some "u1" ∧
    Reachable stErrRefine ∧ stErrRefine.appState = AppState.ERROR ∧
    stErrRefine.selectedImageUrl = some "u1" :=
  ⟨reach_stProcRefine, rfl, rfl, reach_stErrRefine, rfl, rfl⟩

/-- C3 (amended): only the forward direction of the invariant holds in
every reachable state — in Editing an image is always selected; the
selection may however remain set while a refinement is in flight
(Processing) and after a refinement fails (Error). -/
theorem c3_amended (s : AppSt) (h : Reachable s) :
    s.appState = AppState.EDITING → s.selectedImageUrl ≠ none := by
  induction h with
  | init => intro he; simp [initialState] at he
  | fileSelect s f hr hidle ih =>
    intro he
    cases f with
    | none => exact ih (by simpa [handleFileSelect] using he)
    | some f =>
      by_cases himg : strStartsWith f.type "image/"
      · simp [handleFileSelect, himg, handleInitialGenerationStart] at he
      · simp [handleFileSelect, himg] at he
  | genSettle s result hr hp hm ih =>
    intro he
    cases result <;> simp [handleInitialGenerationSettle] at he
  | selectImage s url hr hs hmem ih =>
    intro he
    simp [handleSelectImage]
  | backToGrid s hr hs ih =>
    intro he
    simp [handleBackToGrid] at he
  | refineSubmit s prompt hr hs hp ih =>
    intro he
    cases hsel : s.selectedImageUrl with
    | none =>
      simp [handleRefinementSubmit, hsel] at he ⊢
      exact (ih he) hsel
    | some url => simp [handleRefinementSubmit, hsel] at he
  | refineSettle s result hr hs hm ih =>
    intro he
    cases result <;> simp [handleRefinementSettle] at he
  | startOver s hr hs ih =>
    intro he
    simp [handleStartOver] at he
  | retry s f hr hs hf ih =>
    intro he
    simp [handleInitialGenerationStart] at he
  | setMode s m hr hs ih =>
    intro he
    simp [setGenerationMode] at he ⊢
    exact fun hn => (ih he) (by simpa using hn)
  | setPrompt s p hr hs ih =>
    intro he
    simp at he ⊢
    exact fun hn => (ih he) (by simpa using hn)

/-- C3 witness: the concrete reachable Editing state has a selection,
via `c3_amended`. -/
theorem c3_witness : stEdit.selectedImageUrl ≠ none :=
  c3_amended stEdit reach_stEdit rfl

/-! ## Claim C5 -/

/-- C5, counterexample: the mode toggle is NOT restricted to Idle — in
the reachable SUCCESS state it is still clickable (pointer events are
blocked only while PROCESSING), and clicking it there yields another
reachable state. -/
theorem c5_counterexample :
    Reachable stGrid ∧ stGrid.appState = AppState.SUCCESS ∧
    stGrid.appState ≠ AppState.IDLE ∧
    modeChangeAvailable stGrid = true ∧
    Reachable (setGenerationMode GenerationMode.SOCIAL stGrid) :=
  ⟨reach_stGrid, rfl, by decide, rfl,
    Reachable.setMode stGrid GenerationMode.SOCIAL reach_stGrid (by decide)⟩

/-- C5 (amended): the mode toggle is available exactly when the session
is not PROCESSING (not only in Idle); changing the mode alters no other
stored entity — source file, batch, selection, session state, error and
edit prompt are untouched — and only determines the instruction used by
the next generation call (the two instructions differ). -/
theorem c5_amended :
    (∀ s : AppSt, modeChangeAvailable s = true ↔ s.appState ≠ AppState.PROCESSING) ∧
    (∀ (s : AppSt) (m : GenerationMode),
      (setGenerationMode m s).originalFile = s.originalFile ∧
      (setGenerationMode m s).generatedImageUrls = s.generatedImageUrls ∧
      (setGenerationMode m s).selectedImageUrl = s.selectedImageUrl ∧
      (setGenerationMode m s).appState = s.appState ∧
      (setGenerationMode m s).error = s.error ∧
      (setGenerationMode m s).editPrompt = s.editPrompt ∧
      (setGenerationMode m s).generationMode = m ∧
      (∀ img : InlineData,
        generateRequests img (setGenerationMode m s).generationMode =
          List.replicate 4 { image := img, text := promptForMode m })) ∧
    ecommercePrompt ≠ socialPrompt := by
  refine ⟨?_, ?_, ?_⟩
  · intro s
    cases hs : s.appState <;> simp [modeChangeAvailable, hs]
  · intro s m
    exact ⟨rfl, rfl, rfl, rfl, rfl, rfl, rfl, fun img => rfl⟩
  · decide

/-- C5 witness: the toggle is available in the concrete initial state,
via `c5_amended`. -/
theorem c5_witness : modeChangeAvailable initialState = true :=
  (c5_amended.1 initialState).mpr (by decide)

/-! ## Claim C6 -/

/-- C6, counterexample: in the reachable Editing state with original
file `foto.png` and STUDIO (ECOMMERCE) mode, the emitted filename is
`foto-ecommerce-editado.jpeg` — the extension is the literal `jpeg`,
not the original file's `png` as the claim's `{ext}` formula requires. -/
theorem c6_counterexample :
    Reachable stEdit ∧ stEdit.appState = AppState.EDITING ∧
    stEdit.originalFile = some { name := "foto.png", type := "image/png" } ∧
    stEdit.generationMode = GenerationMode.ECOMMERCE ∧
    handleDownload stEdit = some "foto-ecommerce-editado.jpeg" ∧
    "foto-ecommerce-editado.jpeg" ≠ "foto-ecommerce-editado.png" :=
  ⟨reach_stEdit, rfl, rfl, rfl, rfl, by decide⟩

/-- C6 (amended): for a download with an image selected and an original
filename `base.ext` (non-empty dot-free base, dot-free extension), the
filename is `{base}-{lowercased mode}-editado.jpeg` — the extension is
always `jpeg` regardless of the original one; in particular STUDIO
(ECOMMERCE) mode and original `baseName.png` give
`baseName-ecommerce-editado.jpeg`. -/
theorem c6_amended (s : AppSt) (url base ext fty : String)
    (hsel : s.selectedImageUrl = some url)
    (hfile : s.originalFile = some { name := base ++ "." ++ ext, type := fty })
    (hbase : ¬ base = "") (hbd : '.' ∉ base.toList) (hed : '.' ∉ ext.toList) :
    handleDownload s =
      some (base ++ "-" ++ modeSlug s.generationMode ++ "-editado.jpeg") := by
  have hsplit : jsSplitDot (base ++ "." ++ ext) = [base, ext] :=
    jsSplitDot_single base ext hbd hed
  simp [handleDownload, hsel, hfile, downloadBaseName, hsplit, joinDot, hbase]

/-- C6 witness: the scenario of the claim — original `baseName.png`,
ECOMMERCE mode — produces `baseName-ecommerce-editado.jpeg`, via
`c6_amended`. -/
theorem c6_witness :
    handleDownload { stEdit with
      originalFile := some { name := "baseName" ++ "." ++ "png", type := "image/png" } } =
      some ("baseName" ++ "-" ++ "ecommerce" ++ "-editado.jpeg") :=
  c6_amended _ "u1" "baseName" "png" "image/png" rfl rfl (by decide)
    (by decide) (by decide)

/-! ## Claim C7 -/

/-- C7: `handleStartOver`, from any state, clears the source file, the
batch, the selection and the error, and returns to IDLE. -/
theorem c7_start_over (s : AppSt) :
    (handleStartOver s).originalFile = none ∧
    (handleStartOver s).generatedImageUrls = [] ∧
    (handleStartOver s).selectedImageUrl = none ∧
    (handleStartOver s).error = none ∧
    (handleStartOver s).appState = AppState.IDLE :=
  ⟨rfl, rfl, rfl, rfl, rfl⟩

/-! ## Claim C8 -/

/-- C8: a non-image file selected while Idle leaves the session in IDLE,
sets the inline error, leaves the source image unchanged, and the file
is never handed to the generation client. -/
theorem c8_invalid_file (s : AppSt) (f : FileRec)
    (hidle : s.appState = AppState.IDLE)
    (hinv : strStartsWith f.type "image/" = false) :
    (handleFileSelect (some f) s).1.appState = AppState.IDLE ∧
    (handleFileSelect (some f) s).1.error = some invalidFileText ∧
    (handleFileSelect (some f) s).1.originalFile = s.originalFile ∧
    (handleFileSelect (some f) s).2 = none := by
  simp [handleFileSelect, hinv]

/-- C8 witness: dropping a PDF on the idle app stays IDLE, via
`c8_invalid_file`. -/
theorem c8_witness :
    (handleFileSelect (some { name := "doc.pdf", type := "application/pdf" })
      initialState).1.appState = AppState.IDLE :=
  (c8_invalid_file initialState { name := "doc.pdf", type := "application/pdf" }
    rfl (by decide)).1

/-! ## Claim C9 -/

/-- C9: invoking the refinement handler with no selected image is a
no-op — the whole state (session state, batch, selection, error, edit
prompt) is returned unchanged and `refineImage` is not called. -/
theorem c9_no_selection (s : AppSt) (prompt : String)
    (h : s.selectedImageUrl = none) :
    (handleRefinementSubmit prompt s).1 = s ∧
    (handleRefinementSubmit prompt s).2 = none := by
  simp [handleRefinementSubmit, h]

/-- C9 witness: the initial state (no selection) is untouched, via
`c9_no_selection`. -/
theorem c9_witness : (handleRefinementSubmit "x" initialState).1 = initialState :=
  (c9_no_selection initialState "x" rfl).1

/-! ## Claim C10 -/

/-- C10: when a download runs with an image selected and either no
stored original file or an original filename without a dot (the base
name computation then yields the empty string), the base name falls
back to `produto` and the filename is `produto-{mode}-editado.jpeg`. -/
theorem c10_fallback (s : AppSt) (url : String)
    (hsel : s.selectedImageUrl = some url)
    (hfile : s.originalFile = none ∨
      ∃ f : FileRec, s.originalFile = some f ∧ '.' ∉ f.name.toList) :
    handleDownload s =
      some ("produto" ++ "-" ++ modeSlug s.generationMode ++ "-editado.jpeg") := by
  cases hfile with
  | inl h => simp [handleDownload, hsel, h, downloadBaseName]
  | inr h =>
    obtain ⟨f, hf, hnd⟩ := h
    have hempty : downloadBaseName (some f) = "" := downloadBaseName_no_dot f hnd
    simp [handleDownload, hsel, hf, hempty]

/-- C10 witness: the Editing state with its original file dropped
downloads as `produto-ecommerce-editado.jpeg`, via `c10_fallback`. -/
theorem c10_witness :
    handleDownload { stEdit with originalFile := none } =
      some ("produto" ++ "-" ++
        modeSlug ({ stEdit with originalFile := none } : AppSt).generationMode ++
        "-editado.jpeg") :=
  c10_fallback { stEdit with originalFile := none } "u1" rfl (Or.inl rfl)

end DonaRai
